import Mathlib

/-!
Verification development for `swift/common/middleware/trivial_keymaster.py`.

The Python 2 source is shallowly embedded over byte lists (`Bytes := List Nat`):
Python 2 `str` values are byte strings, so every string-valued quantity of the
middleware (paths, header names, header values, tokens, derived keys) is a
`List Nat` of byte values.  Pure standard-library routines used by the source
(`hmac` with `hashlib.sha256`, `base64.b64encode`/`b64decode`, `os.path.join`,
`str.split`) are embedded from their documented Python 2 semantics.  Helpers
imported from elsewhere in the swift repository (`split_path`,
`get_obj_persisted_sysmeta_prefix`, `is_sys_meta`, `strip_sys_meta_prefix`,
`WSGIContext._response_header_value`) are not part of the sources at hand and
are modelled from the specification; each such definition is flagged in its
doc comment.
-/

set_option maxRecDepth 100000

abbrev Bytes := List Nat

/-- ASCII byte values of a Lean string literal.  All literals used in this
development are ASCII, matching the byte strings of the Python 2 source. -/
def pstr (s : String) : Bytes := s.data.map Char.toNat

/-- Lowercase a single ASCII byte, as Python `str.lower` does byte-wise. -/
def lowerByte (b : Nat) : Nat := if 65 ≤ b ∧ b ≤ 90 then b + 32 else b

/-- Python `str.lower` on a byte string. -/
def lowerB (s : Bytes) : Bytes := s.map lowerByte

/-- Python dict lookup `d.get(k)` for a string-keyed dict represented as an
association list. -/
def dlookup : List (Bytes × Bytes) → Bytes → Option Bytes
  | [], _ => none
  | (k', v) :: rest, k => if k' = k then some v else dlookup rest k

/-- Python dict assignment `d[k] = v`: replace the entry if the key is
present, append it otherwise. -/
def dictSet : List (Bytes × Bytes) → Bytes → Bytes → List (Bytes × Bytes)
  | [], k, v => [(k, v)]
  | (k', v') :: rest, k, v =>
    if k' = k then (k, v) :: rest else (k', v') :: dictSet rest k v

/-- Boolean test that `p` is a leading run of `s` (Python `s.startswith(p)`). -/
def hasPfx : Bytes → Bytes → Bool
  | [], _ => true
  | _ :: _, [] => false
  | p :: ps, c :: cs => p == c && hasPfx ps cs

/-- The two-argument `os.path.join` of POSIX Python: an absolute second
component replaces the first; otherwise a separator is inserted unless the
first component is empty or already ends with one. -/
def osJoin (a b : Bytes) : Bytes :=
  if b.head? = some 47 then b
  else if a = [] ∨ a.getLast? = some 47 then a ++ b
  else a ++ 47 :: b

/-- Split off everything before the first separator byte, together with the
remainder after it; `none` when the separator does not occur. -/
def splitFirst (sep : Nat) : Bytes → Option (Bytes × Bytes)
  | [] => none
  | c :: rest =>
    if c = sep then some ([], rest)
    else match splitFirst sep rest with
      | none => none
      | some (pre, post) => some (c :: pre, post)

/-- Python `s.split(sep, maxsplit)` for a single-byte separator. -/
def pySplit (sep : Nat) : Nat → Bytes → List Bytes
  | 0, s => [s]
  | n + 1, s =>
    match splitFirst sep s with
    | none => [s]
    | some (pre, post) => pre :: pySplit sep n post

/-! ## SHA-256 (FIPS 180-4), executable over `Nat` words reduced mod 2^32 -/

/-- Reduce to a 32-bit word. -/
def w32 (x : Nat) : Nat := x % 4294967296

/-- Right rotation of a 32-bit word by `n` places (0 < n < 32). -/
def rotr (n x : Nat) : Nat := x / 2 ^ n + x % 2 ^ n * 2 ^ (32 - n)

def shaCh (e f g : Nat) : Nat := (e &&& f) ^^^ ((4294967295 - e) &&& g)

def shaMaj (a b c : Nat) : Nat := (a &&& b) ^^^ (a &&& c) ^^^ (b &&& c)

def bigSigma0 (x : Nat) : Nat := rotr 2 x ^^^ rotr 13 x ^^^ rotr 22 x

def bigSigma1 (x : Nat) : Nat := rotr 6 x ^^^ rotr 11 x ^^^ rotr 25 x

def smallSigma0 (x : Nat) : Nat := rotr 7 x ^^^ rotr 18 x ^^^ x / 8

def smallSigma1 (x : Nat) : Nat := rotr 17 x ^^^ rotr 19 x ^^^ x / 1024

/-- The 64 SHA-256 round constants of FIPS 180-4, as decimal words. -/
def shaK : List Nat :=
  [1116352408, 1899447441, 3049323471, 3921009573,
   961987163, 1508970993, 2453635748, 2870763221,
   3624381080, 310598401, 607225278, 1426881987,
   1925078388, 2162078206, 2614888103, 3248222580,
   3835390401, 4022224774, 264347078, 604807628,
   770255983, 1249150122, 1555081692, 1996064986,
   2554220882, 2821834349, 2952996808, 3210313671,
   3336571891, 3584528711, 113926993, 338241895,
   666307205, 773529912, 1294757372, 1396182291,
   1695183700, 1986661051, 2177026350, 2456956037,
   2730485921, 2820302411, 3259730800, 3345764771,
   3516065817, 3600352804, 4094571909, 275423344,
   430227734, 506948616, 659060556, 883997877,
   958139571, 1322822218, 1537002063, 1747873779,
   1955562222, 2024104815, 2227730452, 2361852424,
   2428436474, 2756734187, 3204031479, 3329325298]
/-- The eight working variables of the SHA-256 compression function. -/
structure H8 where
  a : Nat
  b : Nat
  c : Nat
  d : Nat
  e : Nat
  f : Nat
  g : Nat
  h : Nat

/-- Initial SHA-256 hash value of FIPS 180-4, as decimal words. -/
def shaInit : H8 :=
  ⟨1779033703, 3144134277, 1013904242, 2773480762,
   1359893119, 2600822924, 528734635, 1541459225⟩

/-- Big-endian 32-bit words from a byte stream (trailing fragment dropped;
padded input is always a multiple of four bytes). -/
def bytesToWords : Bytes → List Nat
  | b0 :: b1 :: b2 :: b3 :: rest =>
    (((b0 * 256 + b1) * 256 + b2) * 256 + b3) :: bytesToWords rest
  | _ => []

/-- Group a word stream into 16-word blocks (trailing fragment dropped;
padded input is always a multiple of sixteen words). -/
def wordsToBlocks : List Nat → List (List Nat)
  | w0 :: w1 :: w2 :: w3 :: w4 :: w5 :: w6 :: w7 ::
    w8 :: w9 :: w10 :: w11 :: w12 :: w13 :: w14 :: w15 :: rest =>
    [w0, w1, w2, w3, w4, w5, w6, w7, w8, w9, w10, w11, w12, w13, w14, w15] ::
      wordsToBlocks rest
  | _ => []

/-- One message-schedule extension step; the schedule is kept most-recent
first, so W[t-2], W[t-7], W[t-15], W[t-16] sit at positions 1, 6, 14, 15. -/
def stepW (rev : List Nat) : List Nat :=
  w32 (smallSigma1 (rev.getD 1 0) + rev.getD 6 0 +
    smallSigma0 (rev.getD 14 0) + rev.getD 15 0) :: rev

def extendW : Nat → List Nat → List Nat
  | 0, rev => rev
  | n + 1, rev => extendW n (stepW rev)

/-- The full 64-entry message schedule of one block. -/
def fullW (block : List Nat) : List Nat := (extendW 48 block.reverse).reverse

/-- One SHA-256 round. -/
def compressStep (x : H8) (kw : Nat × Nat) : H8 :=
  let t1 := w32 (x.h + bigSigma1 x.e + shaCh x.e x.f x.g + kw.1 + kw.2)
  let t2 := w32 (bigSigma0 x.a + shaMaj x.a x.b x.c)
  ⟨w32 (t1 + t2), x.a, x.b, x.c, w32 (x.d + t1), x.e, x.f, x.g⟩

/-- Process one 16-word block. -/
def compress (hv : H8) (block : List Nat) : H8 :=
  let z := (shaK.zip (fullW block)).foldl compressStep hv
  ⟨w32 (hv.a + z.a), w32 (hv.b + z.b), w32 (hv.c + z.c), w32 (hv.d + z.d),
   w32 (hv.e + z.e), w32 (hv.f + z.f), w32 (hv.g + z.g), w32 (hv.h + z.h)⟩

/-- Big-endian 8-byte encoding of the 64-bit message length. -/
def toBytes8 (n : Nat) : Bytes :=
  [n / 72057594037927936 % 256, n / 281474976710656 % 256,
   n / 1099511627776 % 256, n / 4294967296 % 256,
   n / 16777216 % 256, n / 65536 % 256, n / 256 % 256, n % 256]

/-- SHA-256 padding: a 0x80 byte, zeros to 56 mod 64, then the bit length. -/
def shaPad (m : Bytes) : Bytes :=
  m ++ 128 :: List.replicate ((119 - m.length % 64) % 64) 0 ++
    toBytes8 (m.length * 8)

/-- Big-endian 4-byte encoding of a 32-bit word. -/
def toBytes4 (w : Nat) : Bytes :=
  [w / 16777216 % 256, w / 65536 % 256, w / 256 % 256, w % 256]

/-- The SHA-256 digest of a byte string. -/
def sha256 (m : Bytes) : Bytes :=
  let hv := (wordsToBlocks (bytesToWords (shaPad m))).foldl compress shaInit
  toBytes4 hv.a ++ toBytes4 hv.b ++ toBytes4 hv.c ++ toBytes4 hv.d ++
    toBytes4 hv.e ++ toBytes4 hv.f ++ toBytes4 hv.g ++ toBytes4 hv.h

/-- HMAC-SHA256 as computed by Python `hmac.new(key, msg, hashlib.sha256)`:
block size 64, long keys hashed first, short keys zero-padded. -/
def hmacSha256 (key msg : Bytes) : Bytes :=
  let k := if 64 < key.length then sha256 key else key
  let k0 := k ++ List.replicate (64 - k.length) 0
  sha256 (k0.map (Nat.xor 92) ++ sha256 (k0.map (Nat.xor 54) ++ msg))

/-- Sanity check against the FIPS 180-4 test vector for "abc". -/
theorem sha256_abc_vector :
    sha256 (pstr "abc") =
      [0xba, 0x78, 0x16, 0xbf, 0x8f, 0x01, 0xcf, 0xea,
       0x41, 0x41, 0x40, 0xde, 0x5d, 0xae, 0x22, 0x23,
       0xb0, 0x03, 0x61, 0xa3, 0x96, 0x17, 0x7a, 0x9c,
       0xb4, 0x10, 0xff, 0x61, 0xf2, 0x00, 0x15, 0xad] := by decide

/-- Sanity check against RFC 4231 test case 2 (key "Jefe", data
"what do ya want for nothing?"). -/
theorem hmac_sha256_rfc4231_vector :
    hmacSha256 (pstr "Jefe") (pstr "what do ya want for nothing?") =
      [0x5b, 0xdc, 0xc1, 0x46, 0xbf, 0x60, 0x75, 0x4e,
       0x6a, 0x04, 0x24, 0x26, 0x08, 0x95, 0x75, 0xc7,
       0x5a, 0x00, 0x3f, 0x08, 0x9d, 0x27, 0x39, 0x83,
       0x9d, 0xec, 0x58, 0xb9, 0x64, 0xec, 0x38, 0x43] := by decide

/-! ## Base64 (Python 2 `base64.b64encode` / `b64decode`) -/

/-- The base64 alphabet: the character for a 6-bit value. -/
def b64chr (n : Nat) : Nat :=
  if n < 26 then 65 + n
  else if n < 52 then 97 + (n - 26)
  else if n < 62 then 48 + (n - 52)
  else if n = 62 then 43
  else 47

/-- The 6-bit value of a base64 character, `none` for a non-alphabet byte. -/
def b64val (c : Nat) : Option Nat :=
  if 65 ≤ c ∧ c ≤ 90 then some (c - 65)
  else if 97 ≤ c ∧ c ≤ 122 then some (c - 71)
  else if 48 ≤ c ∧ c ≤ 57 then some (c + 4)
  else if c = 43 then some 62
  else if c = 47 then some 63
  else none

/-- Python 2 `base64.b64encode`: three input bytes become four alphabet
characters; a final one- or two-byte group is padded with `=` (byte 61). -/
def b64encode : Bytes → Bytes
  | [] => []
  | [b1] => [b64chr (b1 / 4), b64chr (b1 % 4 * 16), 61, 61]
  | [b1, b2] =>
    [b64chr (b1 / 4), b64chr (b1 % 4 * 16 + b2 / 16), b64chr (b2 % 16 * 4), 61]
  | b1 :: b2 :: b3 :: rest =>
    b64chr (b1 / 4) :: b64chr (b1 % 4 * 16 + b2 / 16) ::
      b64chr (b2 % 16 * 4 + b3 / 64) :: b64chr (b3 % 64) :: b64encode rest

/-- The first byte of the stream that is a base64 character or the pad
byte, skipping every other byte — CPython's lookahead used to decide
whether a pad at quad position two ends the input. -/
def b64FindValid : Bytes → Option Nat
  | [] => none
  | c :: rest =>
    if c = 61 ∨ (b64val c).isSome then some c else b64FindValid rest

/-- The decoding loop of CPython 2 `binascii.a2b_base64`: non-alphabet bytes
are skipped; a pad byte at quad position two (followed by another pad) or
three ends the input; otherwise each alphabet byte contributes six bits and a
byte is emitted whenever eight are available.  Leftover bits at the end of
the input are the `Incorrect padding` error, surfaced by
`base64.b64decode` as the `TypeError` the middleware catches. -/
def b64decodeAux : Nat → Nat → Nat → Bytes → Bytes → Option Bytes
  | _, _, lb, [], acc => if lb = 0 then some acc.reverse else none
  | qp, lc, lb, c :: rest, acc =>
    if c = 61 then
      if qp < 2 then b64decodeAux qp lc lb rest acc
      else if qp = 2 then
        if b64FindValid rest = some 61 then some acc.reverse
        else b64decodeAux qp lc lb rest acc
      else some acc.reverse
    else
      match b64val c with
      | none => b64decodeAux qp lc lb rest acc
      | some v =>
        if 8 ≤ lb + 6 then
          b64decodeAux ((qp + 1) % 4) (lc * 64 + v) (lb + 6 - 8) rest
            ((lc * 64 + v) / 2 ^ (lb + 6 - 8) % 256 :: acc)
        else
          b64decodeAux ((qp + 1) % 4) (lc * 64 + v) (lb + 6) rest acc

/-- Python 2 `base64.b64decode`, with `none` for the raised `TypeError`. -/
def b64decode (s : Bytes) : Option Bytes := b64decodeAux 0 0 0 s []

/-- Sanity checks of the base64 embedding on standard RFC 4648 vectors. -/
theorem b64_vectors :
    b64encode (pstr "foob") = pstr "Zm9vYg==" ∧
    b64encode (pstr "foobar") = pstr "Zm9vYmFy" ∧
    b64decode (pstr "Zm9vYg==") = some (pstr "foob") ∧
    b64decode (pstr "Zm9vYmE=") = some (pstr "fooba") ∧
    b64decode (pstr "Zm9vYmF") = none ∧
    b64decode (pstr "/a/c") = some [253, 175, 220] ∧
    b64decode [] = some [] := by decide

/-! ## Spec-modelled swift helpers (imported by the middleware, not in src) -/

/-- Modelled from the spec: `split_path(path, 3, 3, True)` from
`swift.common.utils` (not among the sources at hand), as used to parse a
decoded KeyIdToken.  Decoding a valid token must yield exactly three
segments of a rooted path — account, container, object, each non-empty —
with the trailing object segment keeping any embedded separators; any
other shape is the malformed-token (`ValueError`) condition, here `none`. -/
def split_path_3 (path : Bytes) : Option (Bytes × Bytes × Bytes) :=
  match pySplit 47 3 path with
  | [e, a, c, o] =>
    if e = [] ∧ a ≠ [] ∧ c ≠ [] ∧ o ≠ [] then some (a, c, o) else none
  | _ => none

/-- Modelled from the spec: `req.split_path(2, 4, True)` (swift's
`split_path` from `swift.common.utils`, not among the sources at hand), as
used by the dispatcher.  The request path must be rooted and split into a
depth of 2 to 4 segments — version, account, optional container, optional
trailing object that keeps embedded separators and may be empty — with the
first two segments non-empty; any other shape raises `ValueError`, here
`none`. -/
def split_path_24 (path : Bytes) :
    Option (Bytes × Bytes × Option Bytes × Option Bytes) :=
  match pySplit 47 4 path with
  | [e, v, a] =>
    if e = [] ∧ v ≠ [] ∧ a ≠ [] then some (v, a, none, none) else none
  | [e, v, a, c] =>
    if e = [] ∧ v ≠ [] ∧ a ≠ [] then some (v, a, some c, none) else none
  | [e, v, a, c, o] =>
    if e = [] ∧ v ≠ [] ∧ a ≠ [] then some (v, a, some c, some o) else none
  | _ => none

/-- Modelled from the spec: `get_obj_persisted_sysmeta_prefix()` from
`swift.common.request_helpers` (not among the sources at hand) — the
object persisted-system-metadata header prefix under which the
`crypto-id` token is scoped. -/
def objPersistedSysmetaPfx : Bytes := pstr "X-Object-Sysmeta-"

/-- The header name carrying the KeyIdToken: the object
persisted-system-metadata prefix suffixed `crypto-id`
(`"%scrypto-id" % get_obj_persisted_sysmeta_prefix()`). -/
def cryptoIdName : Bytes := objPersistedSysmetaPfx ++ pstr "crypto-id"

/-- Modelled from the spec: the system-metadata header prefix for a server
type, `x-<server_type>-sysmeta-`, per the source's own comment that the
completion check looks for `x-<server_type>-sysmeta-crypto-meta` headers
(`is_sys_meta`/`strip_sys_meta_prefix` live in
`swift.common.request_helpers`, not among the sources at hand). -/
def sysMetaPfxOf (t : Bytes) : Bytes := pstr "x-" ++ t ++ pstr "-sysmeta-"

/-- Modelled from the spec: `is_sys_meta(server_type, header)` — whether a
header name is system metadata of the given server type (header names
compared case-insensitively). -/
def is_sys_meta (t hdr : Bytes) : Bool := hasPfx (sysMetaPfxOf t) (lowerB hdr)

/-- Modelled from the spec: `strip_sys_meta_prefix(server_type, header)` —
the header name with the system-metadata prefix removed. -/
def stripSysMetaPfx (t hdr : Bytes) : Bytes := hdr.drop (sysMetaPfxOf t).length

/-- Modelled from the spec: `WSGIContext._response_header_value(key)` from
`swift.common.wsgi` (not among the sources at hand) — the value of the
first response header whose name matches case-insensitively, if any. -/
def responseHeaderValue : List (Bytes × Bytes) → Bytes → Option Bytes
  | [], _ => none
  | (h, v) :: rest, name =>
    if lowerB h = lowerB name then some v else responseHeaderValue rest name

/-! ## The keymaster and its per-request context -/

/-- The keymaster middleware object.  `TrivialKeyMaster.__init__` stores the
wrapped app and a logger built from `conf`, and sets the root key to the
constant bytes of `"secret"`; no configuration value reaches it. -/
structure TrivialKeyMaster where
  root_key : Bytes
deriving DecidableEq

/-- `TrivialKeyMaster(app, conf)`: the configuration feeds only the logger;
the root key is the constant `'secret'.encode('utf-8')`. -/
def TrivialKeyMaster.make (_conf : List (Bytes × Bytes)) : TrivialKeyMaster :=
  { root_key := pstr "secret" }

/-- `TrivialKeyMaster.create_key`: the HMAC-SHA256 digest of the path under
the root key. -/
def TrivialKeyMaster.create_key (km : TrivialKeyMaster) (key_id : Bytes) :
    Bytes :=
  hmacSha256 km.root_key key_id

/-- The state of a `TrivialKeyMasterContext` after `__init__`/`_init_keys`:
the request's path components, the derived default KeySet, the computed
paths and the server type. -/
structure Ctx where
  km : TrivialKeyMaster
  account : Bytes
  container : Option Bytes
  obj : Option Bytes
  keys : List (Bytes × Bytes)
  account_path : Bytes
  container_path : Option Bytes
  obj_path : Option Bytes
  server_type : Bytes
deriving DecidableEq

/-- Python truthiness of an optional byte string (`None` and `''` are
falsy). -/
def truthy : Option Bytes → Bool
  | none => false
  | some b => !b.isEmpty

/-- `TrivialKeyMasterContext._init_keys`: starting from an empty KeySet,
derive the container key when a container segment is (truthily) present,
and additionally the object key when an object segment is present, the
paths being built with `os.path.join`. -/
def _init_keys (km : TrivialKeyMaster) (account : Bytes)
    (container obj : Option Bytes) : Ctx :=
  let account_path := osJoin (pstr "/") account
  let base : Ctx :=
    { km := km, account := account, container := container, obj := obj,
      keys := [], account_path := account_path, container_path := none,
      obj_path := none, server_type := pstr "account" }
  match container with
  | none => base
  | some c =>
    if c = [] then base
    else
      let container_path := osJoin account_path c
      let keys1 := dictSet [] (pstr "container") (km.create_key container_path)
      let withCont : Ctx :=
        { base with
            server_type := pstr "container",
            container_path := some container_path,
            keys := keys1 }
      match obj with
      | none => withCont
      | some o =>
        if o = [] then withCont
        else
          let obj_path := osJoin container_path o
          { withCont with
              server_type := pstr "object",
              obj_path := some obj_path,
              keys := dictSet keys1 (pstr "object") (km.create_key obj_path) }

/-- The crypto-related entries of the WSGI request environment:
`swift.crypto.override` and the installed `swift.crypto.fetch_crypto_keys`
callback (whose return value is the context's KeySet at call time). -/
structure CryptoEnv where
  override : Bool
  fetch_crypto_keys : Option (List (Bytes × Bytes))
deriving DecidableEq

/-- A fresh request environment: no override recorded, no callback. -/
def initialEnv : CryptoEnv := { override := false, fetch_crypto_keys := none }

/-- `TrivialKeyMasterContext.provide_keys_get_or_head`, run after the
downstream response is available.  For an object-level request the
`crypto-id` token is read from the response metadata; a missing or empty
token, a base64 decode failure, or a decoded path that does not split into
exactly three segments is the caught `ValueError` that records the
override; on success the container and object keys are re-derived from the
resolved path.  Finally, unless the override is recorded, the key-supply
callback is installed. -/
def provide_keys_get_or_head (ctx : Ctx) (resp : List (Bytes × Bytes))
    (env : CryptoEnv) : Ctx × CryptoEnv :=
  let step :=
    match ctx.obj_path with
    | none => (ctx, env)
    | some _ =>
      match responseHeaderValue resp cryptoIdName with
      | none => (ctx, { env with override := true })
      | some tok =>
        if tok = [] then (ctx, { env with override := true })
        else
          match b64decode tok with
          | none => (ctx, { env with override := true })
          | some d =>
            match split_path_3 d with
            | none => (ctx, { env with override := true })
            | some (pa, pc, _po) =>
              let cont_key_path := osJoin (osJoin (pstr "/") pa) pc
              let keys1 :=
                dictSet ctx.keys (pstr "container")
                  (ctx.km.create_key cont_key_path)
              let keys2 :=
                dictSet keys1 (pstr "object") (ctx.km.create_key d)
              ({ ctx with keys := keys2 }, env)
  let ctx1 := step.1
  let env1 := step.2
  if env1.override then (ctx1, env1)
  else (ctx1, { env1 with fetch_crypto_keys := some ctx1.keys })

/-- The 422 response the middleware can surface. -/
inductive HttpErr where
  | unprocessableEntity : HttpErr
deriving DecidableEq

/-- `TrivialKeyMasterContext.error_if_need_keys`: `true` exactly when some
response header is system metadata of the context's server type whose
stripped name starts with `crypto-meta-` — the condition under which the
function raises `HTTPUnprocessableEntity`.  No call site of this function
remains in the source: its only invocation is commented out pending real
footer support. -/
def error_if_need_keys (server_type : Bytes)
    (resp : List (Bytes × Bytes)) : Bool :=
  resp.any fun hv =>
    is_sys_meta server_type hv.1 &&
      hasPfx (pstr "crypto-meta-") (lowerB (stripSysMetaPfx server_type hv.1))

/-- `GET`/`HEAD` handling: build the context from the request path, call the
wrapped app (its response headers are the `resp` argument), then run
`provide_keys_get_or_head` on a fresh environment.  The body has no raise
path — `provide_keys_get_or_head` catches its `ValueError` internally and
the `error_if_need_keys` call is commented out — so the result is always
`Except.ok`. -/
def handle_get_or_head (km : TrivialKeyMaster) (account : Bytes)
    (container obj : Option Bytes) (resp : List (Bytes × Bytes)) :
    Except HttpErr (Ctx × CryptoEnv) :=
  let ctx := _init_keys km account container obj
  Except.ok (provide_keys_get_or_head ctx resp initialEnv)

/-- `TrivialKeyMasterContext.PUT` followed by `_handle_post_or_put`: for an
object-level request the `crypto-id` header is set on the outgoing request
to the base64 encoding of the object's own path; then the key-supply
callback is installed unconditionally.  Returns the forwarded request
headers and the environment. -/
def handle_put (km : TrivialKeyMaster) (account : Bytes)
    (container obj : Option Bytes) (reqHeaders : List (Bytes × Bytes)) :
    List (Bytes × Bytes) × Ctx × CryptoEnv :=
  let ctx := _init_keys km account container obj
  let req' :=
    match ctx.obj_path with
    | some p => dictSet reqHeaders cryptoIdName (b64encode p)
    | none => reqHeaders
  (req', ctx, { initialEnv with fetch_crypto_keys := some ctx.keys })

/-- `TrivialKeyMasterContext.POST` via `_handle_post_or_put`: the request
headers are forwarded untouched and the key-supply callback is installed
unconditionally. -/
def handle_post (km : TrivialKeyMaster) (account : Bytes)
    (container obj : Option Bytes) (reqHeaders : List (Bytes × Bytes)) :
    List (Bytes × Bytes) × Ctx × CryptoEnv :=
  let ctx := _init_keys km account container obj
  (reqHeaders, ctx, { initialEnv with fetch_crypto_keys := some ctx.keys })

/-- The attribute names of the class `TrivialKeyMasterContext`, against
which the dispatcher's `hasattr(TrivialKeyMasterContext, req.method)` test
runs: the methods declared in its class body, together with those modelled
from the spec for the external base class `WSGIContext` of
`swift.common.wsgi` (not among the sources at hand, thin response-capturing
plumbing declaring no HTTP-verb-named attributes) and the standard
attributes every Python 2 new-style class carries. -/
def contextAttrNames : List Bytes :=
  [pstr "PUT", pstr "POST", pstr "GET", pstr "HEAD",
   pstr "_init_keys", pstr "_handle_post_or_put",
   pstr "_handle_get_or_head", pstr "error_if_need_keys",
   pstr "provide_keys_get_or_head", pstr "fetch_crypto_keys",
   pstr "__init__", pstr "_app_call", pstr "_start_response",
   pstr "_response_header_value", pstr "update_content_length",
   pstr "__class__", pstr "__delattr__", pstr "__dict__", pstr "__doc__",
   pstr "__format__", pstr "__getattribute__", pstr "__hash__",
   pstr "__module__", pstr "__new__", pstr "__reduce__",
   pstr "__reduce_ex__", pstr "__repr__", pstr "__setattr__",
   pstr "__sizeof__", pstr "__str__", pstr "__subclasshook__",
   pstr "__weakref__"]

/-- `hasattr(TrivialKeyMasterContext, m)`. -/
def contextHasAttr (m : Bytes) : Bool := contextAttrNames.contains m

/-- The dispatcher's decision for one request: either the request is passed
through to the wrapped app unmodified, or a `TrivialKeyMasterContext` is
constructed over the split path components and the attribute named by the
request method is invoked on it. -/
inductive Dispatch where
  | passthrough : Dispatch
  | delegate : Bytes → Option Bytes → Option Bytes → Dispatch
deriving DecidableEq

/-- `TrivialKeyMaster.__call__`: split the request path into 2 to 4
segments (`ValueError` means pass through); if the context class has an
attribute named like the request method, construct the context from the
components after the version and delegate to that attribute; otherwise
pass the request through. -/
def keymaster_call (method path : Bytes) : Dispatch :=
  match split_path_24 path with
  | none => Dispatch.passthrough
  | some (_v, a, c, o) =>
    if contextHasAttr method then Dispatch.delegate a c o
    else Dispatch.passthrough

/-- Sanity checks of the path helpers on concrete requests. -/
theorem path_helper_vectors :
    split_path_24 (pstr "/v1/a/c/o") =
      some (pstr "v1", pstr "a", some (pstr "c"), some (pstr "o")) ∧
    split_path_24 (pstr "/v1/a") = some (pstr "v1", pstr "a", none, none) ∧
    split_path_24 (pstr "/v1/a/c/o/x") =
      some (pstr "v1", pstr "a", some (pstr "c"), some (pstr "o/x")) ∧
    split_path_24 (pstr "/v1/a/c//o") =
      some (pstr "v1", pstr "a", some (pstr "c"), some (pstr "/o")) ∧
    split_path_24 (pstr "/v1") = none ∧
    split_path_24 (pstr "v1/a") = none ∧
    split_path_3 (pstr "/a/c/o") = some (pstr "a", pstr "c", pstr "o") ∧
    split_path_3 (pstr "/a/c") = none ∧
    split_path_3 (pstr "/a/c/o/x") = some (pstr "a", pstr "c", pstr "o/x") ∧
    osJoin (osJoin (osJoin (pstr "/") (pstr "a")) (pstr "c")) (pstr "o") =
      pstr "/a/c/o" ∧
    osJoin (pstr "/a/c") (pstr "/o") = pstr "/o" := by
  refine ⟨?_, ?_, ?_, ?_, ?_, ?_, ?_, ?_, ?_, ?_, ?_⟩ <;> decide

/-! ## Lemmas about the dictionary and path primitives -/

theorem dlookup_dictSet_self (d : List (Bytes × Bytes)) (k v : Bytes) :
    dlookup (dictSet d k v) k = some v := by
  induction d with
  | nil => simp [dictSet, dlookup]
  | cons p rest ih =>
    obtain ⟨k', v'⟩ := p
    by_cases h : k' = k
    · simp [dictSet, dlookup, h]
    · simp [dictSet, dlookup, h, ih]

theorem dlookup_dictSet_ne (d : List (Bytes × Bytes)) (k v k' : Bytes)
    (h : k ≠ k') : dlookup (dictSet d k v) k' = dlookup d k' := by
  induction d with
  | nil => simp [dictSet, dlookup, h]
  | cons p rest ih =>
    obtain ⟨k0, v0⟩ := p
    by_cases h0 : k0 = k
    · subst h0; simp [dictSet, dlookup, h]
    · have h2 : ¬k' = k := fun e => h e.symm
      by_cases h1 : k0 = k'
      · simp [dictSet, dlookup, h0, h1, h2]
      · simp [dictSet, dlookup, h0, h1, h2, ih]

theorem head?_ne_of_not_mem (l : Bytes) (h : 47 ∉ l) : l.head? ≠ some 47 := by
  cases l with
  | nil => simp
  | cons a t =>
    simp only [List.head?_cons, ne_eq, Option.some.injEq]
    intro e
    exact h (e ▸ List.mem_cons_self a t)

theorem getLast?_ne_of_not_mem (l : Bytes) (h : 47 ∉ l) :
    l.getLast? ≠ some 47 := by
  induction l with
  | nil => simp
  | cons a t ih =>
    cases t with
    | nil =>
      simp only [List.getLast?_singleton, ne_eq, Option.some.injEq]
      intro e
      exact h (e ▸ List.mem_cons_self a [])
    | cons b t2 =>
      rw [List.getLast?_cons_cons]
      exact ih fun m => h (List.mem_cons_of_mem _ m)

theorem getLast?_cons47 (a : Bytes) (ha0 : a ≠ []) (ha : 47 ∉ a) :
    (47 :: a).getLast? ≠ some 47 := by
  cases a with
  | nil => exact absurd rfl ha0
  | cons b t =>
    rw [List.getLast?_cons_cons]
    exact getLast?_ne_of_not_mem _ ha

theorem osJoin_sep (x y : Bytes) (hx : x ≠ []) (hxl : x.getLast? ≠ some 47)
    (hy : y.head? ≠ some 47) : osJoin x y = x ++ 47 :: y := by
  simp only [osJoin]
  rw [if_neg hy, if_neg (not_or.mpr ⟨hx, hxl⟩)]

theorem osJoin_root (a : Bytes) (ha : a.head? ≠ some 47) :
    osJoin (pstr "/") a = 47 :: a := by
  simp only [osJoin]
  rw [if_neg ha, if_pos (Or.inr (by decide))]
  rfl

theorem osJoin_paths (a c : Bytes) (ha47 : 47 ∉ a) (ha0 : a ≠ [])
    (hc47 : 47 ∉ c) : osJoin (osJoin (pstr "/") a) c = 47 :: a ++ 47 :: c := by
  rw [osJoin_root a (head?_ne_of_not_mem a ha47),
    osJoin_sep (47 :: a) c (by simp) (getLast?_cons47 a ha0 ha47)
      (head?_ne_of_not_mem c hc47)]

theorem osJoin_obj (a c o : Bytes) (hc0 : c ≠ []) (hc47 : 47 ∉ c)
    (ho : o.head? ≠ some 47) :
    osJoin (47 :: a ++ 47 :: c) o = 47 :: a ++ 47 :: c ++ 47 :: o := by
  have hlast : (47 :: a ++ 47 :: c).getLast? ≠ some 47 := by
    have h1 : (47 :: a ++ 47 :: c).getLast? = (47 :: c).getLast? := by
      rw [List.getLast?_append]
      cases h2 : (47 :: c).getLast? with
      | none =>
        exact absurd (List.getLast?_eq_none_iff.mp h2) (by simp)
      | some z => rfl
    rw [h1]
    exact getLast?_cons47 c hc0 hc47
  rw [osJoin_sep _ o (by simp) hlast ho, List.append_assoc]

/-! ## Lemmas about splitting -/

theorem splitFirst_not_mem (sep : Nat) :
    ∀ s : Bytes, sep ∉ s → splitFirst sep s = none
  | [], _ => rfl
  | c :: t, h => by
    have hc : ¬c = sep := fun e => h (e ▸ List.mem_cons_self c t)
    simp [splitFirst, hc,
      splitFirst_not_mem sep t fun m => h (List.mem_cons_of_mem _ m)]

theorem splitFirst_append (sep : Nat) :
    ∀ x y : Bytes, sep ∉ x → splitFirst sep (x ++ sep :: y) = some (x, y)
  | [], y, _ => by simp [splitFirst]
  | c :: t, y, h => by
    have hc : ¬c = sep := fun e => h (e ▸ List.mem_cons_self c t)
    simp [splitFirst, hc,
      splitFirst_append sep t y fun m => h (List.mem_cons_of_mem _ m)]

theorem splitFirst_eq_some (sep : Nat) :
    ∀ {s pre post : Bytes}, splitFirst sep s = some (pre, post) →
      s = pre ++ sep :: post ∧ sep ∉ pre := by
  intro s
  induction s with
  | nil => intro pre post h; simp [splitFirst] at h
  | cons c t ih =>
    intro pre post h
    by_cases hc : c = sep
    · simp [splitFirst, hc] at h
      obtain ⟨h1, h2⟩ := h
      subst h1; subst h2; subst hc
      simp
    · rcases hsp : splitFirst sep t with _ | ⟨p, q⟩
      · simp [splitFirst, hc, hsp] at h
      · simp [splitFirst, hc, hsp] at h
        obtain ⟨h1, h2⟩ := h
        obtain ⟨ht, hp⟩ := ih hsp
        subst h1; subst h2
        refine ⟨by rw [ht]; simp, ?_⟩
        simp only [List.mem_cons, not_or]
        exact ⟨fun e => hc e.symm, hp⟩

theorem pySplit3_concat (a c o : Bytes) (ha : 47 ∉ a) (hc : 47 ∉ c) :
    pySplit 47 3 (47 :: a ++ 47 :: c ++ 47 :: o) = [[], a, c, o] := by
  have e1 : (47 :: a ++ 47 :: c ++ 47 :: o : Bytes) =
      47 :: (a ++ 47 :: (c ++ 47 :: o)) := by simp
  have s1 : splitFirst 47 (47 :: (a ++ 47 :: (c ++ 47 :: o))) =
      some ([], a ++ 47 :: (c ++ 47 :: o)) := by simp [splitFirst]
  have s2 : splitFirst 47 (a ++ 47 :: (c ++ 47 :: o)) =
      some (a, c ++ 47 :: o) := splitFirst_append 47 a _ ha
  have s3 : splitFirst 47 (c ++ 47 :: o) = some (c, o) :=
    splitFirst_append 47 c o hc
  rw [e1]
  simp [pySplit, s1, s2, s3]

theorem split_path_3_concat (a c o : Bytes) (ha47 : 47 ∉ a) (hc47 : 47 ∉ c)
    (ha : a ≠ []) (hc : c ≠ []) (ho : o ≠ []) :
    split_path_3 (47 :: a ++ 47 :: c ++ 47 :: o) = some (a, c, o) := by
  rw [split_path_3, pySplit3_concat a c o ha47 hc47]
  simp [ha, hc, ho]

theorem split_path_3_inv {d pa pc po : Bytes}
    (h : split_path_3 d = some (pa, pc, po)) :
    d = 47 :: pa ++ 47 :: pc ++ 47 :: po ∧
      pa ≠ [] ∧ pc ≠ [] ∧ po ≠ [] ∧ 47 ∉ pa ∧ 47 ∉ pc := by
  rw [split_path_3] at h
  rcases h1 : splitFirst 47 d with _ | ⟨e1, r1⟩
  · simp [pySplit, h1] at h
  rcases h2 : splitFirst 47 r1 with _ | ⟨s1, r2⟩
  · simp [pySplit, h1, h2] at h
  rcases h3 : splitFirst 47 r2 with _ | ⟨s2, r3⟩
  · simp [pySplit, h1, h2, h3] at h
  simp only [pySplit, h1, h2, h3] at h
  obtain ⟨hd, he1⟩ := splitFirst_eq_some 47 h1
  obtain ⟨hr1, hs1⟩ := splitFirst_eq_some 47 h2
  obtain ⟨hr2, hs2⟩ := splitFirst_eq_some 47 h3
  by_cases hcond : e1 = ([] : Bytes) ∧ s1 ≠ ([] : Bytes) ∧
      s2 ≠ ([] : Bytes) ∧ r3 ≠ ([] : Bytes)
  · rw [if_pos hcond] at h
    obtain ⟨hc1, hc2, hc3, hc4⟩ := hcond
    obtain ⟨hpa, hpc, hpo⟩ : s1 = pa ∧ s2 = pc ∧ r3 = po := by
      simpa using h
    subst hpa; subst hpc; subst hpo; subst hc1
    refine ⟨?_, hc2, hc3, hc4, hs1, hs2⟩
    rw [hd, hr1, hr2]
    simp
  · rw [if_neg hcond] at h
    exact absurd h (by simp)

/-! ## Base64 roundtrip -/

theorem b64_tbl : ∀ v < 64, b64val (b64chr v) = some v ∧ b64chr v ≠ 61 := by
  decide

theorem b64step0 (qp qp' lc c v : Nat) (rest acc : Bytes)
    (hv : b64val c = some v) (hpad : c ≠ 61) (hqp : (qp + 1) % 4 = qp') :
    b64decodeAux qp lc 0 (c :: rest) acc =
      b64decodeAux qp' (lc * 64 + v) 6 rest acc := by
  subst hqp
  simp [b64decodeAux, hv, hpad]

theorem b64step6 (qp qp' lc c v : Nat) (rest acc : Bytes)
    (hv : b64val c = some v) (hpad : c ≠ 61) (hqp : (qp + 1) % 4 = qp') :
    b64decodeAux qp lc 6 (c :: rest) acc =
      b64decodeAux qp' (lc * 64 + v) 4 rest
        ((lc * 64 + v) / 16 % 256 :: acc) := by
  subst hqp
  simp [b64decodeAux, hv, hpad]

theorem b64step4 (qp qp' lc c v : Nat) (rest acc : Bytes)
    (hv : b64val c = some v) (hpad : c ≠ 61) (hqp : (qp + 1) % 4 = qp') :
    b64decodeAux qp lc 4 (c :: rest) acc =
      b64decodeAux qp' (lc * 64 + v) 2 rest
        ((lc * 64 + v) / 4 % 256 :: acc) := by
  subst hqp
  simp [b64decodeAux, hv, hpad]

theorem b64step2 (qp qp' lc c v : Nat) (rest acc : Bytes)
    (hv : b64val c = some v) (hpad : c ≠ 61) (hqp : (qp + 1) % 4 = qp') :
    b64decodeAux qp lc 2 (c :: rest) acc =
      b64decodeAux qp' (lc * 64 + v) 0 rest
        ((lc * 64 + v) % 256 :: acc) := by
  subst hqp
  simp [b64decodeAux, hv, hpad]

theorem b64aux_pad2 (lc lb : Nat) (rest acc : Bytes)
    (hfv : b64FindValid rest = some 61) :
    b64decodeAux 2 lc lb (61 :: rest) acc = some acc.reverse := by
  simp [b64decodeAux, hfv]

theorem b64aux_pad3 (lc lb : Nat) (rest acc : Bytes) :
    b64decodeAux 3 lc lb (61 :: rest) acc = some acc.reverse := by
  simp [b64decodeAux]

theorem b64decodeAux_encode : ∀ s : Bytes, (∀ b ∈ s, b < 256) →
    ∀ (lc : Nat) (acc : Bytes),
      b64decodeAux 0 lc 0 (b64encode s) acc = some (acc.reverse ++ s)
  | [], _, lc, acc => by simp [b64encode, b64decodeAux]
  | [b1], hs, lc, acc => by
    have hb1 : b1 < 256 := hs b1 (by simp)
    obtain ⟨hv1, hp1⟩ := b64_tbl (b1 / 4) (by omega)
    obtain ⟨hv2, hp2⟩ := b64_tbl (b1 % 4 * 16) (by omega)
    have he1 : ((lc * 64 + b1 / 4) * 64 + b1 % 4 * 16) / 16 % 256 = b1 := by
      omega
    rw [show b64encode [b1] =
        b64chr (b1 / 4) :: b64chr (b1 % 4 * 16) :: 61 :: 61 :: ([] : Bytes)
        from rfl,
      b64step0 0 1 lc _ _ _ acc hv1 hp1 rfl,
      b64step6 1 2 _ _ _ _ acc hv2 hp2 rfl,
      he1,
      b64aux_pad2 _ _ [61] _ (by decide)]
    simp
  | [b1, b2], hs, lc, acc => by
    have hb1 : b1 < 256 := hs b1 (by simp)
    have hb2 : b2 < 256 := hs b2 (by simp)
    obtain ⟨hv1, hp1⟩ := b64_tbl (b1 / 4) (by omega)
    obtain ⟨hv2, hp2⟩ := b64_tbl (b1 % 4 * 16 + b2 / 16) (by omega)
    obtain ⟨hv3, hp3⟩ := b64_tbl (b2 % 16 * 4) (by omega)
    have he1 :
        ((lc * 64 + b1 / 4) * 64 + (b1 % 4 * 16 + b2 / 16)) / 16 % 256 =
          b1 := by omega
    have he2 :
        (((lc * 64 + b1 / 4) * 64 + (b1 % 4 * 16 + b2 / 16)) * 64 +
          b2 % 16 * 4) / 4 % 256 = b2 := by omega
    rw [show b64encode [b1, b2] =
        b64chr (b1 / 4) :: b64chr (b1 % 4 * 16 + b2 / 16) ::
          b64chr (b2 % 16 * 4) :: 61 :: ([] : Bytes) from rfl,
      b64step0 0 1 lc _ _ _ acc hv1 hp1 rfl,
      b64step6 1 2 _ _ _ _ acc hv2 hp2 rfl,
      he1,
      b64step4 2 3 _ _ _ _ _ hv3 hp3 rfl,
      he2,
      b64aux_pad3 _ _ _ _]
    simp
  | b1 :: b2 :: b3 :: rest, hs, lc, acc => by
    have hb1 : b1 < 256 := hs b1 (by simp)
    have hb2 : b2 < 256 := hs b2 (by simp)
    have hb3 : b3 < 256 := hs b3 (by simp)
    obtain ⟨hv1, hp1⟩ := b64_tbl (b1 / 4) (by omega)
    obtain ⟨hv2, hp2⟩ := b64_tbl (b1 % 4 * 16 + b2 / 16) (by omega)
    obtain ⟨hv3, hp3⟩ := b64_tbl (b2 % 16 * 4 + b3 / 64) (by omega)
    obtain ⟨hv4, hp4⟩ := b64_tbl (b3 % 64) (by omega)
    have he1 :
        ((lc * 64 + b1 / 4) * 64 + (b1 % 4 * 16 + b2 / 16)) / 16 % 256 =
          b1 := by omega
    have he2 :
        (((lc * 64 + b1 / 4) * 64 + (b1 % 4 * 16 + b2 / 16)) * 64 +
          (b2 % 16 * 4 + b3 / 64)) / 4 % 256 = b2 := by omega
    have he3 :
        ((((lc * 64 + b1 / 4) * 64 + (b1 % 4 * 16 + b2 / 16)) * 64 +
          (b2 % 16 * 4 + b3 / 64)) * 64 + b3 % 64) % 256 = b3 := by omega
    rw [show b64encode (b1 :: b2 :: b3 :: rest) =
        b64chr (b1 / 4) :: b64chr (b1 % 4 * 16 + b2 / 16) ::
          b64chr (b2 % 16 * 4 + b3 / 64) :: b64chr (b3 % 64) ::
            b64encode rest from rfl,
      b64step0 0 1 lc _ _ _ acc hv1 hp1 rfl,
      b64step6 1 2 _ _ _ _ acc hv2 hp2 rfl,
      he1,
      b64step4 2 3 _ _ _ _ _ hv3 hp3 rfl,
      he2,
      b64step2 3 0 _ _ _ _ _ hv4 hp4 rfl,
      he3,
      b64decodeAux_encode rest
        (fun b hb => hs b (by simp [hb])) _ _]
    simp

/-- The base64 roundtrip: decoding an encoded byte string (all bytes below
256) recovers it exactly. -/
theorem b64decode_encode (s : Bytes) (hs : ∀ b ∈ s, b < 256) :
    b64decode (b64encode s) = some s := by
  rw [b64decode, b64decodeAux_encode s hs 0 []]
  rfl

/-! ## Lemmas about the keymaster context -/

theorem sha256_length (m : Bytes) : (sha256 m).length = 32 := by
  simp [sha256, toBytes4]

theorem create_key_length (km : TrivialKeyMaster) (p : Bytes) :
    (km.create_key p).length = 32 := by
  simp [TrivialKeyMaster.create_key, hmacSha256, sha256_length]

theorem container_ne_object : pstr "container" ≠ pstr "object" := by decide

theorem init_keys_container_eq (km : TrivialKeyMaster) (a c : Bytes)
    (hc : c ≠ []) :
    _init_keys km a (some c) none =
      { km := km, account := a, container := some c, obj := none,
        keys := [(pstr "container",
          km.create_key (osJoin (osJoin (pstr "/") a) c))],
        account_path := osJoin (pstr "/") a,
        container_path := some (osJoin (osJoin (pstr "/") a) c),
        obj_path := none, server_type := pstr "container" } := by
  simp [_init_keys, hc, dictSet]

theorem init_keys_object_eq (km : TrivialKeyMaster) (a c o : Bytes)
    (hc : c ≠ []) (ho : o ≠ []) :
    _init_keys km a (some c) (some o) =
      { km := km, account := a, container := some c, obj := some o,
        keys := [(pstr "container",
            km.create_key (osJoin (osJoin (pstr "/") a) c)),
          (pstr "object",
            km.create_key (osJoin (osJoin (osJoin (pstr "/") a) c) o))],
        account_path := osJoin (pstr "/") a,
        container_path := some (osJoin (osJoin (pstr "/") a) c),
        obj_path := some (osJoin (osJoin (osJoin (pstr "/") a) c) o),
        server_type := pstr "object" } := by
  simp [_init_keys, hc, ho, dictSet, container_ne_object]

theorem provide_keys_success (ctx : Ctx) (resp : List (Bytes × Bytes))
    (env : CryptoEnv) (op tok d pa pc po : Bytes)
    (hobj : ctx.obj_path = some op)
    (hrv : responseHeaderValue resp cryptoIdName = some tok)
    (htok : tok ≠ []) (hdec : b64decode tok = some d)
    (hsp : split_path_3 d = some (pa, pc, po)) (hov : env.override = false) :
    provide_keys_get_or_head ctx resp env =
      ({ ctx with
          keys := dictSet
            (dictSet ctx.keys (pstr "container")
              (ctx.km.create_key (osJoin (osJoin (pstr "/") pa) pc)))
            (pstr "object") (ctx.km.create_key d) },
        { env with
            fetch_crypto_keys := some (dictSet
              (dictSet ctx.keys (pstr "container")
                (ctx.km.create_key (osJoin (osJoin (pstr "/") pa) pc)))
              (pstr "object") (ctx.km.create_key d)) }) := by
  simp [provide_keys_get_or_head, hobj, hrv, htok, hdec, hsp, hov]

theorem provide_keys_malformed (ctx : Ctx) (resp : List (Bytes × Bytes))
    (env : CryptoEnv) (op : Bytes) (hobj : ctx.obj_path = some op)
    (hmal : responseHeaderValue resp cryptoIdName = none ∨
      ∃ tok, responseHeaderValue resp cryptoIdName = some tok ∧
        (b64decode tok = none ∨
          ∃ d, b64decode tok = some d ∧ split_path_3 d = none)) :
    provide_keys_get_or_head ctx resp env =
      (ctx, { env with override := true }) := by
  rcases hmal with hnone | ⟨tok, hrv, hbad⟩
  · simp [provide_keys_get_or_head, hobj, hnone]
  · by_cases htok : tok = []
    · simp [provide_keys_get_or_head, hobj, hrv, htok]
    · rcases hbad with hdec | ⟨d, hdec, hsp⟩
      · simp [provide_keys_get_or_head, hobj, hrv, htok, hdec]
      · simp [provide_keys_get_or_head, hobj, hrv, htok, hdec, hsp]

theorem provide_keys_fetch_iff (ctx : Ctx) (resp : List (Bytes × Bytes)) :
    ((provide_keys_get_or_head ctx resp initialEnv).2.fetch_crypto_keys).isSome
      = !(provide_keys_get_or_head ctx resp initialEnv).2.override := by
  rcases hobj : ctx.obj_path with _ | op
  · simp [provide_keys_get_or_head, hobj, initialEnv]
  · rcases hrv : responseHeaderValue resp cryptoIdName with _ | tok
    · simp [provide_keys_get_or_head, hobj, hrv, initialEnv]
    · by_cases htok : tok = []
      · simp [provide_keys_get_or_head, hobj, hrv, htok, initialEnv]
      · rcases hdec : b64decode tok with _ | d
        · simp [provide_keys_get_or_head, hobj, hrv, htok, hdec, initialEnv]
        · rcases hsp : split_path_3 d with _ | ⟨pa, pc, po⟩
          · simp [provide_keys_get_or_head, hobj, hrv, htok, hdec, hsp,
              initialEnv]
          · simp [provide_keys_get_or_head, hobj, hrv, htok, hdec, hsp,
              initialEnv]

theorem init_keys_km (km : TrivialKeyMaster) (a : Bytes)
    (c o : Option Bytes) : (_init_keys km a c o).km = km := by
  rcases c with _ | c'
  · rfl
  · by_cases hce : c' = []
    · simp [_init_keys, hce]
    · rcases o with _ | o'
      · simp [_init_keys, hce]
      · by_cases hoe : o' = []
        · simp [_init_keys, hce, hoe]
        · simp [_init_keys, hce, hoe]

/-! ## The claims -/

/-- C2: for every object-level GET or HEAD request in which the crypto-id
token is absent from the response metadata, fails to base64-decode, or does
not parse as exactly 3 path segments, the override flag is set and the
key-supply callback is not installed into the request environment, so no
KeySet is supplied for that request. -/
theorem C2_malformed_token_withholds_keys (km : TrivialKeyMaster)
    (a c o : Bytes) (resp : List (Bytes × Bytes)) (hc : c ≠ []) (ho : o ≠ [])
    (hmal : responseHeaderValue resp cryptoIdName = none ∨
      ∃ tok, responseHeaderValue resp cryptoIdName = some tok ∧
        (b64decode tok = none ∨
          ∃ d, b64decode tok = some d ∧ split_path_3 d = none)) :
    handle_get_or_head km a (some c) (some o) resp =
      Except.ok (_init_keys km a (some c) (some o),
        { override := true, fetch_crypto_keys := none }) := by
  have hobj : (_init_keys km a (some c) (some o)).obj_path =
      some (osJoin (osJoin (osJoin (pstr "/") a) c) o) := by
    rw [init_keys_object_eq km a c o hc ho]
  simp only [handle_get_or_head]
  rw [provide_keys_malformed _ resp initialEnv _ hobj hmal]
  rfl

/-- Witness for C2 at a concrete object-level GET whose response carries no
crypto-id token. -/
theorem C2_malformed_token_withholds_keys_wit :
    handle_get_or_head (TrivialKeyMaster.make []) (pstr "a")
        (some (pstr "c")) (some (pstr "o")) [] =
      Except.ok (_init_keys (TrivialKeyMaster.make []) (pstr "a")
          (some (pstr "c")) (some (pstr "o")),
        { override := true, fetch_crypto_keys := none }) :=
  C2_malformed_token_withholds_keys (TrivialKeyMaster.make []) (pstr "a")
    (pstr "c") (pstr "o") [] (by decide) (by decide) (Or.inl (by decide))

/-- C3 counterexample: an object-level GET whose response carries an
object-sysmeta `crypto-meta-` header (so `error_if_need_keys` would fire)
and no crypto-id token (so no keys are supplied) nevertheless completes
normally, with no `HTTPUnprocessableEntity`: the check's only call site is
commented out. -/
theorem C3_counterexample :
    error_if_need_keys (pstr "object")
        [(pstr "X-Object-Sysmeta-Crypto-Meta-Etag", pstr "m")] = true ∧
    handle_get_or_head (TrivialKeyMaster.make []) (pstr "a")
        (some (pstr "c")) (some (pstr "o"))
        [(pstr "X-Object-Sysmeta-Crypto-Meta-Etag", pstr "m")] =
      Except.ok (_init_keys (TrivialKeyMaster.make []) (pstr "a")
          (some (pstr "c")) (some (pstr "o")),
        { override := true, fetch_crypto_keys := none }) := by
  constructor
  · decide
  · have hobj : (_init_keys (TrivialKeyMaster.make []) (pstr "a")
        (some (pstr "c")) (some (pstr "o"))).obj_path =
        some (osJoin (osJoin (osJoin (pstr "/") (pstr "a")) (pstr "c"))
          (pstr "o")) := by
      rw [init_keys_object_eq _ _ _ _ (by decide) (by decide)]
    simp only [handle_get_or_head]
    rw [provide_keys_malformed _ _ initialEnv _ hobj (Or.inl (by decide))]
    rfl

/-- C3 amended: the GET/HEAD completion path always returns a normal
response — the `error_if_need_keys` call is commented out — while the
check itself, were it invoked, raises the 422 exactly when some response
header is system metadata of the server type whose stripped name starts
with `crypto-meta-`. -/
theorem C3_unprocessable_check_not_invoked (km : TrivialKeyMaster)
    (a : Bytes) (c o : Option Bytes) (st : Bytes)
    (resp : List (Bytes × Bytes)) :
    (∃ r, handle_get_or_head km a c o resp = Except.ok r) ∧
    (error_if_need_keys st resp = true ↔
      ∃ hv ∈ resp, is_sys_meta st hv.1 = true ∧
        hasPfx (pstr "crypto-meta-") (lowerB (stripSysMetaPfx st hv.1)) =
          true) := by
  constructor
  · exact ⟨_, rfl⟩
  · simp [error_if_need_keys, List.any_eq_true, Bool.and_eq_true]

/-- Witness for C3's amended statement at a concrete request and header
set on which the check fires yet the handler completes normally. -/
theorem C3_unprocessable_check_not_invoked_wit :
    (∃ r, handle_get_or_head (TrivialKeyMaster.make []) (pstr "a")
        (some (pstr "c")) (some (pstr "o"))
        [(pstr "X-Object-Sysmeta-Crypto-Meta-Etag", pstr "m")] =
      Except.ok r) ∧
    error_if_need_keys (pstr "object")
        [(pstr "X-Object-Sysmeta-Crypto-Meta-Etag", pstr "m")] = true := by
  have h := C3_unprocessable_check_not_invoked (TrivialKeyMaster.make [])
    (pstr "a") (some (pstr "c")) (some (pstr "o")) (pstr "object")
    [(pstr "X-Object-Sysmeta-Crypto-Meta-Etag", pstr "m")]
  exact ⟨h.1, h.2.mpr ⟨(pstr "X-Object-Sysmeta-Crypto-Meta-Etag", pstr "m"),
    by simp, by decide, by decide⟩⟩

/-- C4: for every root key and every path, `create_key` is the HMAC-SHA256
digest of the path under the root key, is exactly 32 bytes long, and is
deterministic. -/
theorem C4_create_key_hmac_sha256 (km : TrivialKeyMaster) (p : Bytes) :
    km.create_key p = hmacSha256 km.root_key p ∧
    (km.create_key p).length = 32 ∧
    km.create_key p = km.create_key p :=
  ⟨rfl, create_key_length km p, rfl⟩

/-- C8 counterexample: `fetch_crypto_keys` is not one of PUT, POST, GET,
HEAD, yet a request with that method on a valid two-segment path is not
passed through — the `hasattr` dispatch constructs a context and delegates
to it. -/
theorem C8_counterexample :
    keymaster_call (pstr "fetch_crypto_keys") (pstr "/v1/a") =
      Dispatch.delegate (pstr "a") none none ∧
    (pstr "fetch_crypto_keys") ∉
      ([pstr "PUT", pstr "POST", pstr "GET", pstr "HEAD"] : List Bytes) := by
  refine ⟨by decide, by decide⟩

/-- C8 amended: a request is delegated exactly when its path splits into
2 to 4 segments and its method names an attribute of the context class —
a set that contains PUT, POST, GET and HEAD but also every other attribute
name (such as `fetch_crypto_keys`), and does not contain DELETE or
OPTIONS, which are passed through. -/
theorem C8_dispatch_amended (method path : Bytes) :
    (keymaster_call method path ≠ Dispatch.passthrough ↔
      (split_path_24 path).isSome = true ∧ contextHasAttr method = true) ∧
    contextHasAttr (pstr "PUT") = true ∧
    contextHasAttr (pstr "POST") = true ∧
    contextHasAttr (pstr "GET") = true ∧
    contextHasAttr (pstr "HEAD") = true ∧
    contextHasAttr (pstr "DELETE") = false ∧
    contextHasAttr (pstr "OPTIONS") = false ∧
    ∀ v a c o, split_path_24 path = some (v, a, c, o) →
      contextHasAttr method = true →
      keymaster_call method path = Dispatch.delegate a c o := by
  refine ⟨?_, by decide, by decide, by decide, by decide, by decide,
    by decide, ?_⟩
  · rcases hsp : split_path_24 path with _ | ⟨v, a, c, o⟩
    · simp [keymaster_call, hsp]
    · by_cases hat : contextHasAttr method
      · simp [keymaster_call, hsp, hat]
      · simp [keymaster_call, hsp, hat]
  · intro v a c o hsp hat
    simp [keymaster_call, hsp, hat]

/-- Witness for C8's amended statement: a GET on an object path is
delegated with the components after the version. -/
theorem C8_dispatch_amended_wit :
    keymaster_call (pstr "GET") (pstr "/v1/a/c/o") =
      Dispatch.delegate (pstr "a") (some (pstr "c")) (some (pstr "o")) :=
  (C8_dispatch_amended (pstr "GET") (pstr "/v1/a/c/o")).2.2.2.2.2.2.2
    (pstr "v1") (pstr "a") (some (pstr "c")) (some (pstr "o"))
    (by decide) (by decide)

/-- C9 counterexample: an account-level GET has an empty KeySet, yet the
key-supply callback is installed (returning the empty mapping), because
installation is guarded only by the override flag, never by the KeySet
being non-empty. -/
theorem C9_counterexample :
    (provide_keys_get_or_head
        (_init_keys (TrivialKeyMaster.make []) (pstr "a") none none)
        [] initialEnv).2 =
      { override := false, fetch_crypto_keys := some [] } := by
  rfl

/-- C9 amended: on GET/HEAD the callback is installed exactly when the
override flag is clear (regardless of whether the KeySet is empty), and on
PUT and POST it is installed unconditionally. -/
theorem C9_callback_amended (km : TrivialKeyMaster) (a : Bytes)
    (c o : Option Bytes) (resp reqH : List (Bytes × Bytes)) :
    ((provide_keys_get_or_head (_init_keys km a c o) resp
        initialEnv).2.fetch_crypto_keys).isSome =
      !(provide_keys_get_or_head (_init_keys km a c o) resp
        initialEnv).2.override ∧
    ((handle_put km a c o reqH).2.2.fetch_crypto_keys).isSome = true ∧
    ((handle_post km a c o reqH).2.2.fetch_crypto_keys).isSome = true :=
  ⟨provide_keys_fetch_iff _ resp, rfl, rfl⟩

/-- C10: the derived keys are identical across any two middleware
configurations — the root key is the constant bytes of "secret" and no
configuration value influences derivation. -/
theorem C10_root_key_config_independent (conf1 conf2 : List (Bytes × Bytes))
    (p : Bytes) :
    (TrivialKeyMaster.make conf1).create_key p =
      (TrivialKeyMaster.make conf2).create_key p ∧
    (TrivialKeyMaster.make conf1).root_key = pstr "secret" :=
  ⟨rfl, rfl⟩

theorem dlookup_singleton_isSome {k0 v k : Bytes}
    (h : (dlookup [(k0, v)] k).isSome = true) : k0 = k := by
  by_cases hk : k0 = k
  · exact hk
  · simp [dlookup, hk] at h

theorem dlookup_pair_isSome {k0 v0 k1 v1 k : Bytes}
    (h : (dlookup [(k0, v0), (k1, v1)] k).isSome = true) :
    k0 = k ∨ k1 = k := by
  by_cases hk0 : k0 = k
  · exact Or.inl hk0
  · by_cases hk1 : k1 = k
    · exact Or.inr hk1
    · simp [dlookup, hk0, hk1] at h

/-- C1: for every object-level GET or HEAD whose response metadata carries a
crypto-id token that base64-decodes and parses as an account/container/object
path P (which may differ from the request's own path), the supplied KeySet
maps "container" to the key derived from P's container path and "object" to
the key derived from P, replacing the defaults computed at initialization. -/
theorem C1_token_resolved_keys (km : TrivialKeyMaster) (a c o : Bytes)
    (resp : List (Bytes × Bytes)) (tok d pa pc po : Bytes)
    (hc : c ≠ []) (ho : o ≠ [])
    (hrv : responseHeaderValue resp cryptoIdName = some tok)
    (htok : tok ≠ []) (hdec : b64decode tok = some d)
    (hsp : split_path_3 d = some (pa, pc, po)) :
    ∃ ks : List (Bytes × Bytes),
      handle_get_or_head km a (some c) (some o) resp =
        Except.ok ({ _init_keys km a (some c) (some o) with keys := ks },
          { override := false, fetch_crypto_keys := some ks }) ∧
      dlookup ks (pstr "container") =
        some (km.create_key (47 :: pa ++ 47 :: pc)) ∧
      dlookup ks (pstr "object") =
        some (km.create_key (47 :: pa ++ 47 :: pc ++ 47 :: po)) ∧
      d = 47 :: pa ++ 47 :: pc ++ 47 :: po := by
  obtain ⟨hd, hpa0, hpc0, hpo0, hpa47, hpc47⟩ := split_path_3_inv hsp
  have hobj : (_init_keys km a (some c) (some o)).obj_path =
      some (osJoin (osJoin (osJoin (pstr "/") a) c) o) := by
    rw [init_keys_object_eq km a c o hc ho]
  refine ⟨dictSet (dictSet (_init_keys km a (some c) (some o)).keys
      (pstr "container")
      (km.create_key (osJoin (osJoin (pstr "/") pa) pc)))
      (pstr "object") (km.create_key d), ?_, ?_, ?_, hd⟩
  · simp only [handle_get_or_head]
    rw [provide_keys_success _ resp initialEnv _ tok d pa pc po hobj hrv
      htok hdec hsp rfl]
    rw [init_keys_km km a (some c) (some o)]
    rfl
  · rw [dlookup_dictSet_ne _ _ _ _ (Ne.symm container_ne_object),
      dlookup_dictSet_self, osJoin_paths pa pc hpa47 hpa0 hpc47]
  · rw [dlookup_dictSet_self, hd]

/-- Witness for C1: a GET on `/a2/c2/o2` whose response carries the token
recorded for `/a/c/o` resolves keys from `/a/c` and `/a/c/o`, not from the
request's own path. -/
theorem C1_token_resolved_keys_wit :
    ∃ ks : List (Bytes × Bytes),
      handle_get_or_head (TrivialKeyMaster.make []) (pstr "a2")
          (some (pstr "c2")) (some (pstr "o2"))
          [(cryptoIdName, b64encode (pstr "/a/c/o"))] =
        Except.ok ({ _init_keys (TrivialKeyMaster.make []) (pstr "a2")
            (some (pstr "c2")) (some (pstr "o2")) with keys := ks },
          { override := false, fetch_crypto_keys := some ks }) ∧
      dlookup ks (pstr "container") =
        some ((TrivialKeyMaster.make []).create_key
          (47 :: pstr "a" ++ 47 :: pstr "c")) ∧
      dlookup ks (pstr "object") =
        some ((TrivialKeyMaster.make []).create_key
          (47 :: pstr "a" ++ 47 :: pstr "c" ++ 47 :: pstr "o")) ∧
      pstr "/a/c/o" = 47 :: pstr "a" ++ 47 :: pstr "c" ++ 47 :: pstr "o" :=
  C1_token_resolved_keys (TrivialKeyMaster.make []) (pstr "a2") (pstr "c2")
    (pstr "o2") [(cryptoIdName, b64encode (pstr "/a/c/o"))]
    (b64encode (pstr "/a/c/o")) (pstr "/a/c/o") (pstr "a") (pstr "c")
    (pstr "o") (by decide) (by decide) (by decide) (by decide) (by decide)
    (by decide)

/-- C5 counterexample: the request path `/v1/a/c//o` yields the object
segment `/o`; `os.path.join` then discards the container path, so the
object key is derived from `/o` alone — not from
"/account/container/object" (`/a/c//o`), contradicting the claim. -/
theorem C5_counterexample :
    split_path_24 (pstr "/v1/a/c//o") =
      some (pstr "v1", pstr "a", some (pstr "c"), some (pstr "/o")) ∧
    dlookup (_init_keys (TrivialKeyMaster.make []) (pstr "a")
        (some (pstr "c")) (some (pstr "/o"))).keys (pstr "object") =
      some ((TrivialKeyMaster.make []).create_key (pstr "/o")) ∧
    (TrivialKeyMaster.make []).create_key (pstr "/o") ≠
      (TrivialKeyMaster.make []).create_key (pstr "/a/c//o") := by
  refine ⟨by decide, by decide, by decide⟩

/-- C5 amended: at initialization the KeySet is empty for account-only
requests, maps "container" to derive("/account/container") when a container
segment is present, and additionally "object" to
derive("/account/container/object") when an object segment is present —
provided the segments are non-empty, account and container are
separator-free and the object segment does not begin with a separator
(an absolute object segment resets `os.path.join`, as the counterexample
shows); the KeySet never has entries other than "container" and
"object". -/
theorem C5_init_keys_amended (km : TrivialKeyMaster) (a c o : Bytes)
    (ha47 : 47 ∉ a) (ha0 : a ≠ []) (hc47 : 47 ∉ c) (hc0 : c ≠ [])
    (ho0 : o ≠ []) (ho47 : o.head? ≠ some 47) :
    (_init_keys km a none none).keys = [] ∧
    (_init_keys km a (some ([] : Bytes)) none).keys = [] ∧
    (_init_keys km a (some c) none).keys =
      [(pstr "container", km.create_key (47 :: a ++ 47 :: c))] ∧
    (_init_keys km a (some c) (some o)).keys =
      [(pstr "container", km.create_key (47 :: a ++ 47 :: c)),
       (pstr "object", km.create_key (47 :: a ++ 47 :: c ++ 47 :: o))] ∧
    ∀ (a' : Bytes) (c' o' : Option Bytes) (k : Bytes),
      (dlookup (_init_keys km a' c' o').keys k).isSome = true →
        k = pstr "container" ∨ k = pstr "object" := by
  refine ⟨rfl, by simp [_init_keys], ?_, ?_, ?_⟩
  · rw [init_keys_container_eq km a c hc0, osJoin_paths a c ha47 ha0 hc47]
  · rw [init_keys_object_eq km a c o hc0 ho0]
    show [(pstr "container", km.create_key (osJoin (osJoin (pstr "/") a) c)),
      (pstr "object",
        km.create_key (osJoin (osJoin (osJoin (pstr "/") a) c) o))] = _
    rw [osJoin_paths a c ha47 ha0 hc47, osJoin_obj a c o hc0 hc47 ho47]
  · intro a' c' o' k hk
    rcases c' with _ | c''
    · simp [_init_keys, dlookup] at hk
    · by_cases hce : c'' = []
      · simp [_init_keys, hce, dlookup] at hk
      · rcases o' with _ | o''
        · rw [init_keys_container_eq km a' c'' hce] at hk
          exact Or.inl (dlookup_singleton_isSome hk).symm
        · by_cases hoe : o'' = []
          · subst hoe
            have hkeys : (_init_keys km a' (some c'')
                (some ([] : Bytes))).keys =
                [(pstr "container",
                  km.create_key (osJoin (osJoin (pstr "/") a') c''))] := by
              simp [_init_keys, hce, dictSet]
            rw [hkeys] at hk
            exact Or.inl (dlookup_singleton_isSome hk).symm
          · rw [init_keys_object_eq km a' c'' o'' hce hoe] at hk
            exact (dlookup_pair_isSome hk).imp Eq.symm Eq.symm

/-- Witness for C5's amended statement at the concrete request segments
a, c, o. -/
theorem C5_init_keys_amended_wit :
    (_init_keys (TrivialKeyMaster.make []) (pstr "a") none none).keys =
      [] ∧
    (_init_keys (TrivialKeyMaster.make []) (pstr "a") (some ([] : Bytes))
      none).keys = [] ∧
    (_init_keys (TrivialKeyMaster.make []) (pstr "a") (some (pstr "c"))
      none).keys =
      [(pstr "container", (TrivialKeyMaster.make []).create_key
        (47 :: pstr "a" ++ 47 :: pstr "c"))] ∧
    (_init_keys (TrivialKeyMaster.make []) (pstr "a") (some (pstr "c"))
      (some (pstr "o"))).keys =
      [(pstr "container", (TrivialKeyMaster.make []).create_key
        (47 :: pstr "a" ++ 47 :: pstr "c")),
       (pstr "object", (TrivialKeyMaster.make []).create_key
        (47 :: pstr "a" ++ 47 :: pstr "c" ++ 47 :: pstr "o"))] ∧
    ∀ (a' : Bytes) (c' o' : Option Bytes) (k : Bytes),
      (dlookup (_init_keys (TrivialKeyMaster.make []) a' c' o').keys
        k).isSome = true →
        k = pstr "container" ∨ k = pstr "object" :=
  C5_init_keys_amended (TrivialKeyMaster.make []) (pstr "a") (pstr "c")
    (pstr "o") (by decide) (by decide) (by decide) (by decide) (by decide)
    (by decide)

/-- C6: encoding a 3-segment object path as a KeyIdToken (base64 of the
PUT-computed object path) and then decoding it (base64-decode followed by
the 3-segment parse done on GET/HEAD) recovers exactly the original
account, container and object segments. -/
theorem C6_token_roundtrip (km : TrivialKeyMaster) (a c o : Bytes)
    (ha47 : 47 ∉ a) (ha0 : a ≠ []) (hc47 : 47 ∉ c) (hc0 : c ≠ [])
    (ho0 : o ≠ []) (ho47 : o.head? ≠ some 47)
    (hlt : ∀ b ∈ (47 :: a ++ 47 :: c ++ 47 :: o : Bytes), b < 256) :
    (_init_keys km a (some c) (some o)).obj_path =
      some (47 :: a ++ 47 :: c ++ 47 :: o) ∧
    b64decode (b64encode (47 :: a ++ 47 :: c ++ 47 :: o)) =
      some (47 :: a ++ 47 :: c ++ 47 :: o) ∧
    split_path_3 (47 :: a ++ 47 :: c ++ 47 :: o) = some (a, c, o) := by
  refine ⟨?_, b64decode_encode _ hlt,
    split_path_3_concat a c o ha47 hc47 ha0 hc0 ho0⟩
  rw [init_keys_object_eq km a c o hc0 ho0]
  show some (osJoin (osJoin (osJoin (pstr "/") a) c) o) = _
  rw [osJoin_paths a c ha47 ha0 hc47, osJoin_obj a c o hc0 hc47 ho47]

/-- Witness for C6 at concrete segments, the object segment containing an
embedded separator as swift object names may. -/
theorem C6_token_roundtrip_wit :
    (_init_keys (TrivialKeyMaster.make []) (pstr "a") (some (pstr "c"))
        (some (pstr "o/p"))).obj_path =
      some (47 :: pstr "a" ++ 47 :: pstr "c" ++ 47 :: pstr "o/p") ∧
    b64decode (b64encode
        (47 :: pstr "a" ++ 47 :: pstr "c" ++ 47 :: pstr "o/p")) =
      some (47 :: pstr "a" ++ 47 :: pstr "c" ++ 47 :: pstr "o/p") ∧
    split_path_3 (47 :: pstr "a" ++ 47 :: pstr "c" ++ 47 :: pstr "o/p") =
      some (pstr "a", pstr "c", pstr "o/p") :=
  C6_token_roundtrip (TrivialKeyMaster.make []) (pstr "a") (pstr "c")
    (pstr "o/p") (by decide) (by decide) (by decide) (by decide)
    (by decide) (by decide) (by decide)

/-- C7 counterexample: an object PUT whose object segment is `/o` (from
request path `/v1/a/c//o`) stores base64 of `/o` — `os.path.join` dropped
the account/container prefix — not base64 of the full
"/account/container/object" string `/a/c//o`. -/
theorem C7_counterexample :
    (handle_put (TrivialKeyMaster.make []) (pstr "a") (some (pstr "c"))
        (some (pstr "/o")) []).1 =
      [(cryptoIdName, b64encode (pstr "/o"))] ∧
    b64encode (pstr "/o") ≠ b64encode (pstr "/a/c//o") ∧
    split_path_24 (pstr "/v1/a/c//o") =
      some (pstr "v1", pstr "a", some (pstr "c"), some (pstr "/o")) := by
  refine ⟨by decide, by decide, by decide⟩

/-- C7 amended: an object-level PUT adds the crypto-id header with value
base64 of the object's own joined path — equal to
"/account/container/object" whenever the object segment does not begin
with a separator — while PUTs that are not object-level and all POSTs
leave the request headers untouched. -/
theorem C7_put_header_amended (km : TrivialKeyMaster) (a c o : Bytes)
    (req : List (Bytes × Bytes)) (ha47 : 47 ∉ a) (ha0 : a ≠ [])
    (hc47 : 47 ∉ c) (hc0 : c ≠ []) (ho0 : o ≠ [])
    (ho47 : o.head? ≠ some 47) :
    (handle_put km a (some c) (some o) req).1 =
      dictSet req cryptoIdName
        (b64encode (47 :: a ++ 47 :: c ++ 47 :: o)) ∧
    (∀ (a' : Bytes) (c' o' : Option Bytes) (req' : List (Bytes × Bytes)),
      (_init_keys km a' c' o').obj_path = none →
        (handle_put km a' c' o' req').1 = req') ∧
    (∀ (a' : Bytes) (c' o' : Option Bytes) (req' : List (Bytes × Bytes)),
      (handle_post km a' c' o' req').1 = req') ∧
    (_init_keys km a (some c) none).obj_path = none ∧
    (_init_keys km a none none).obj_path = none := by
  have hobj : (_init_keys km a (some c) (some o)).obj_path =
      some (47 :: a ++ 47 :: c ++ 47 :: o) := by
    rw [init_keys_object_eq km a c o hc0 ho0]
    show some (osJoin (osJoin (osJoin (pstr "/") a) c) o) = _
    rw [osJoin_paths a c ha47 ha0 hc47, osJoin_obj a c o hc0 hc47 ho47]
  refine ⟨?_, ?_, fun a' c' o' req' => rfl, ?_, rfl⟩
  · simp [handle_put, hobj]
  · intro a' c' o' req' hnone
    simp [handle_put, hnone]
  · rw [init_keys_container_eq km a c hc0]

/-- Witness for C7's amended statement at concrete segments. -/
theorem C7_put_header_amended_wit :
    (handle_put (TrivialKeyMaster.make []) (pstr "a") (some (pstr "c"))
        (some (pstr "o")) []).1 =
      dictSet [] cryptoIdName
        (b64encode (47 :: pstr "a" ++ 47 :: pstr "c" ++ 47 :: pstr "o")) ∧
    (∀ (a' : Bytes) (c' o' : Option Bytes) (req' : List (Bytes × Bytes)),
      (_init_keys (TrivialKeyMaster.make []) a' c' o').obj_path = none →
        (handle_put (TrivialKeyMaster.make []) a' c' o' req').1 = req') ∧
    (∀ (a' : Bytes) (c' o' : Option Bytes) (req' : List (Bytes × Bytes)),
      (handle_post (TrivialKeyMaster.make []) a' c' o' req').1 = req') ∧
    (_init_keys (TrivialKeyMaster.make []) (pstr "a") (some (pstr "c"))
      none).obj_path = none ∧
    (_init_keys (TrivialKeyMaster.make []) (pstr "a") none
      none).obj_path = none :=
  C7_put_header_amended (TrivialKeyMaster.make []) (pstr "a") (pstr "c")
    (pstr "o") [] (by decide) (by decide) (by decide) (by decide)
    (by decide) (by decide)
